import Mathlib

/-!
Shallow embedding of the data-writer repository (Go) for checking its
natural-language specification.

The embedding follows the current sources:
  * `src/src/spec/spec.go`     — `ColumnSpec`, `NumericOrder`, `GetSpecFromSQL`
  * `src/src/spec/data_gen.go` — value producers and Parquet batch fillers
  * `src/src/spec/decimal.go`  — `deduceTypeForDecimal`
  * `src/src/config/config.go` — `Validate`
  * generator sources          — `ParquetWriter.Init`, `streamingParquetWriter`,
                                 `Orchestrator.Run`

Go's `*rand.Rand` is modelled as a stream of unbounded naturals with a read
position; each primitive draw (`Intn`, `Int63`, `Read`, …) consumes one
position and reduces the raw value into the range the Go primitive returns.
Any concrete PRNG execution is one particular stream, so properties proved
for all streams cover all executions.

Go `int` values are modelled as `ℤ` (row IDs, which are non-negative by
construction `fileNo·rows + k`, as `ℕ`).  Two's-complement truncation at a
Go conversion such as `int32(v)` is modelled explicitly with `Int.bmod v
(2^32)`.  Go `float32`/`float64` results are modelled as `ℚ` (no claim in
scope depends on floating-point rounding).
-/

namespace DataWriter

/-- Model of Go's `*rand.Rand`: an infinite stream of raw draws plus the
current read position. -/
structure Rng where
  stream : ℕ → ℕ
  pos : ℕ

/-- Consume one raw draw. -/
def Rng.next (r : Rng) : ℕ × Rng :=
  (r.stream r.pos, ⟨r.stream, r.pos + 1⟩)

/-- Go `rng.Intn(n)`: uniform in `[0, n)`.  (Go panics for `n ≤ 0`; the model
reduces modulo `n`, and `x % 0 = x` never arises at call sites in scope.) -/
def Rng.intn (r : Rng) (n : ℕ) : ℕ × Rng :=
  let (v, r') := r.next
  (v % n, r')

/-- Go `rng.Int63()`: uniform in `[0, 2^63)`. -/
def Rng.int63 (r : Rng) : ℕ × Rng :=
  let (v, r') := r.next
  (v % 2 ^ 63, r')

/-- Go `rng.Int()`: on 64-bit platforms identical in range to `Int63`. -/
def Rng.int (r : Rng) : ℕ × Rng :=
  r.int63

/-- Go `rng.Int63n(n)`: uniform in `[0, n)` (panics for `n ≤ 0` in Go). -/
def Rng.int63n (r : Rng) (n : ℕ) : ℕ × Rng :=
  let (v, r') := r.next
  (v % n, r')

/-- Go `rng.Int31()`: uniform in `[0, 2^31)`. -/
def Rng.int31 (r : Rng) : ℕ × Rng :=
  let (v, r') := r.next
  (v % 2 ^ 31, r')

/-- Go `rng.Read(b)` filling `len` bytes: one byte per draw. -/
def Rng.read (r : Rng) : (len : ℕ) → List ℕ × Rng
  | 0 => ([], r)
  | n + 1 =>
    let (v, r') := r.next
    let (rest, r'') := r'.read n
    (v % 256 :: rest, r'')

/-- Go `rng.Float64()`: uniform in `[0, 1)`, modelled as a dyadic rational
with 53 random bits. -/
def Rng.float64 (r : Rng) : ℚ × Rng :=
  let (v, r') := r.next
  ((v % 2 ^ 53 : ℚ) / 2 ^ 53, r')

/-- `type NumericOrder int` from `src/src/spec/spec.go`.

The const block in the current `spec.go` declares `NumericTotalOrder`,
`NumericPartialOrder` and `NumericRandomOrder`; `data_gen.go` additionally
references the legacy constant `NumericNoOrder` (declared in the previous
flat layout of the repository, `src/src/spec.go`, as the zero value of a
four-value enum, distinct from the other three).  The model therefore keeps
all four as distinct values; `GetSpecFromSQL` only ever assigns the last
three. -/
inductive NumericOrder where
  | noOrder
  | totalOrder
  | partialOrder
  | randomOrder
deriving DecidableEq, Repr

/-- `parquet.Type` physical types used by the generator. -/
inductive ParquetType where
  | int32
  | int64
  | float
  | double
  | byteArray
  | fixedLenByteArray
deriving DecidableEq, Repr

/-- `ColumnSpec` from `src/src/spec/spec.go` (fields relevant to value
production; the `Converted` annotation is carried nowhere in the claims). -/
structure ColumnSpec where
  origName : String := ""
  sqlType : String := ""
  type : ParquetType := ParquetType.int64
  typeLen : ℕ := 0
  minLen : ℕ := 0
  precision : ℕ := 0
  scale : ℕ := 0
  nullPercent : ℕ := 0
  valueSet : List String := []
  intSet : List ℤ := []
  isUnique : Bool := false
  order : NumericOrder := NumericOrder.noOrder
  mean : ℤ := 0
  stdDev : ℕ := 0
  signed : Bool := false
  compress : ℕ := 0
deriving DecidableEq, Repr

/-- `generatePartialOrderInt` from `src/src/spec/data_gen.go`:
`randPrefix := (rowID * 1000000007) & 31; moveBit := c.TypeLen - 6;
return (randPrefix << moveBit) + rowID`.

Go's 64-bit wrap of the product does not affect `& 31` because `32 ∣ 2^64`,
so the low five bits equal the true product mod 32.  (Go panics when
`TypeLen < 6`; specs produced by the schema builder have `TypeLen ≥ 8`.) -/
def ColumnSpec.generatePartialOrderInt (c : ColumnSpec) (rowID : ℕ) : ℤ :=
  let randPrefix : ℕ := (rowID * 1000000007) % 32
  let moveBit : ℕ := c.typeLen - 6
  (randPrefix * 2 ^ moveBit + rowID : ℕ)

/-- `generateGaussianInt` from `src/src/spec/data_gen.go`.  `math.Round`
(half away from zero) is modelled with `round` on `ℚ`; no claim in scope
exercises a tie. -/
def ColumnSpec.generateGaussianInt (c : ColumnSpec) (rng : Rng) : ℤ × Rng :=
  let (u, rng') := rng.float64
  let randomFloat : ℚ := (u - 1/2) * 2 * (c.stdDev : ℚ) + (c.mean : ℚ)
  let randomInt : ℤ := round randomFloat
  if c.typeLen = 64 then
    (randomInt, rng')
  else
    let lower : ℤ := if c.signed then -(2 ^ (c.typeLen - 1)) else 0
    let upper : ℤ :=
      if c.signed then 2 ^ c.typeLen - 1 - 2 ^ (c.typeLen - 1)
      else 2 ^ c.typeLen - 1
    (if randomInt > upper then upper
     else if randomInt < lower then lower
     else randomInt, rng')

/-- `generateRandomInt` from `src/src/spec/data_gen.go`. -/
def ColumnSpec.generateRandomInt (c : ColumnSpec) (rng : Rng) : ℤ × Rng :=
  if c.typeLen = 64 then
    let (v, rng') := rng.int
    ((v : ℤ), rng')
  else
    let (v, rng') := rng.intn (2 ^ c.typeLen)
    ((if c.signed then (v : ℤ) - 2 ^ (c.typeLen - 1) else (v : ℤ)), rng')

/-- `generateInt` from `src/src/spec/data_gen.go`.  The receiver is a
pointer, and the branch `if c.IsUnique && c.Order == NumericNoOrder
\x7b c.Order = NumericTotalOrder \x7d` writes through it, so the possibly
updated spec is returned alongside the value. -/
def ColumnSpec.generateInt (c : ColumnSpec) (rowID : ℕ) (rng : Rng) :
    ℤ × ColumnSpec × Rng :=
  if c.intSet.length > 0 then
    let (i, rng') := rng.intn c.intSet.length
    (c.intSet.getD i 0, c, rng')
  else if c.stdDev > 0 then
    let (v, rng') := c.generateGaussianInt rng
    (v, c, rng')
  else
    let c :=
      if c.isUnique ∧ c.order = NumericOrder.noOrder then
        { c with order := NumericOrder.totalOrder }
      else c
    match c.order with
    | NumericOrder.noOrder =>
      let (v, rng') := c.generateRandomInt rng
      (v, c, rng')
    | NumericOrder.totalOrder => ((rowID : ℤ), c, rng)
    | NumericOrder.partialOrder =>
      if rowID % 32 = 0 then (c.generatePartialOrderInt rowID, c, rng)
      else ((rowID : ℤ), c, rng)
    | NumericOrder.randomOrder => (c.generatePartialOrderInt rowID, c, rng)

/-- `validChar` from `src/src/spec/spec.go` (80 ASCII characters). -/
def validChar : String :=
  "0123456789abcdefghijklmnopqrstuvwxyzABCDEFGHIJKLMNOPQRSTUVWXYZ_&*!.;<>?:-+()[]\x7b\x7d"

/-- `validChar[int(b)%len(validChar)]`. -/
def validCharAt (b : ℕ) : Char :=
  validChar.toList.getD (b % validChar.toList.length) 'a'

/-- `generateStringWithCompress` from `src/src/spec/data_gen.go`: the first
`length·compress/100` bytes are random draws mapped through `validChar`, the
rest is the repeating filler byte `'a'` (the 1 KiB `fillA` template). -/
def generateStringWithCompress (length compress : ℕ) (rng : Rng) :
    List Char × Rng :=
  let nonduplicateLength := length * compress / 100
  let (bytes, rng') := rng.read nonduplicateLength
  (bytes.map validCharAt ++ List.replicate (length - nonduplicateLength) 'a',
   rng')

/-- Lower-case hex digit. -/
def hexDigit (n : ℕ) : Char :=
  "0123456789abcdef".toList.getD (n % 16) '0'

/-- Two hex digits of a byte. -/
def byteHex (b : ℕ) : List Char :=
  [hexDigit (b / 16 % 16), hexDigit (b % 16)]

/-- Hex rendering of a byte group. -/
def bytesHex (l : List ℕ) : List Char :=
  (l.map byteHex).flatten

/-- `uuid.New().String()` from google/uuid: 16 random bytes (crypto/rand,
modelled from the same entropy stream), version nibble forced to 4 and the
RFC 4122 variant bits set, rendered as `8-4-4-4-12` lower-case hex. -/
def uuidNewString (rng : Rng) : String × Rng :=
  let (bs, rng') := rng.read 16
  let bs := bs.set 6 ((bs.getD 6 0) % 16 + 0x40)
  let bs := bs.set 8 ((bs.getD 8 0) % 64 + 0x80)
  (String.mk (bytesHex (bs.take 4) ++ '-' ::
      bytesHex ((bs.drop 4).take 2) ++ '-' ::
      bytesHex ((bs.drop 6).take 2) ++ '-' ::
      bytesHex ((bs.drop 8).take 2) ++ '-' ::
      bytesHex (bs.drop 10)),
   rng')

/-- `generateString` from `src/src/spec/data_gen.go`.  Note the order of the
branches: a non-empty `ValueSet` is consulted before `IsUnique`. -/
def ColumnSpec.generateString (c : ColumnSpec) (rng : Rng) : String × Rng :=
  if c.valueSet.length > 0 then
    let (i, rng') := rng.intn c.valueSet.length
    (c.valueSet.getD i "", rng')
  else if c.isUnique then
    uuidNewString rng
  else
    let lower := c.minLen
    let upper := c.typeLen
    let (v, rng') := rng.intn (upper - lower + 1)
    let length := v + lower
    let (chars, rng'') := generateStringWithCompress length c.compress rng'
    (String.mk chars, rng'')

/-- `generateJSON` from `src/src/spec/data_gen.go` (placeholder literal;
ignores the RNG). -/
def ColumnSpec.generateJSON (_c : ColumnSpec) : String :=
  "[1,2,3,4,5]"

/-- `generateNULL` from `src/src/spec/data_gen.go`. -/
def ColumnSpec.generateNULL (c : ColumnSpec) (rng : Rng) : Bool × Rng :=
  let (v, rng') := rng.intn 100
  (decide (v < c.nullPercent), rng')

/-- `generateBatchNull` from `src/src/spec/data_gen.go`: one random byte per
row, row `i` is null iff `byte·100 < NullPercent·256`. -/
def ColumnSpec.generateBatchNull (c : ColumnSpec) (length : ℕ) (rng : Rng) :
    List Bool × Rng :=
  let (bytes, rng') := rng.read length
  (bytes.map (fun b => decide (b * 100 < c.nullPercent * 256)), rng')

/-- Result of the row-oriented `generate`.  The wall-clock driven
`generateRandomTime` branches record the Go format string and the consumed
draw; the calendar formatting itself (`time.Now`-relative) is external. -/
inductive Value where
  | nullStr
  | int (n : ℤ)
  | str (s : String)
  | timeStr (format : String) (randomDur : ℕ)
  | goNil
deriving DecidableEq, Repr

/-- `generateRandomTime` from `src/src/spec/data_gen.go`: one `Int63n` draw
over the one-year span ending now, formatted with the given layout. -/
def ColumnSpec.generateRandomTime (_c : ColumnSpec) (format : String)
    (rng : Rng) : Value × Rng :=
  let (d, rng') := rng.next
  (Value.timeStr format d, rng')

/-- `generate` from `src/src/spec/data_gen.go` (the CSV row path): returns
the value and the definition level, threading the possibly written-through
spec from `generateInt`. -/
def ColumnSpec.generate (c : ColumnSpec) (rowID : ℕ) (rng : Rng) :
    (Value × ℕ) × ColumnSpec × Rng :=
  let (isNull, rng0) := c.generateNULL rng
  if isNull then ((Value.nullStr, 0), c, rng0)
  else
    match c.sqlType with
    | "int" | "tinyint" | "smallint" | "mediumint" | "decimal" =>
      let g := c.generateInt rowID rng0
      ((Value.int g.1, 1), g.2.1, g.2.2)
    | "bigint" | "double" | "float" =>
      let g := c.generateInt rowID rng0
      ((Value.int g.1, 1), g.2.1, g.2.2)
    | "char" | "varchar" | "varbinary" | "blob" | "text" | "tinyblob" =>
      let g := c.generateString rng0
      ((Value.str g.1, 1), c, g.2)
    | "json" => ((Value.str c.generateJSON, 1), c, rng0)
    | "timestamp" | "datetime" =>
      let g := c.generateRandomTime "2006-01-02 15:04:05" rng0
      ((g.1, 1), c, g.2)
    | "date" =>
      let g := c.generateRandomTime "2006-01-02" rng0
      ((g.1, 1), c, g.2)
    | "time" =>
      let g := c.generateRandomTime "15:04:05" rng0
      ((g.1, 1), c, g.2)
    | "year" =>
      let (v, rng') := rng0.intn 70
      ((Value.int ((v : ℤ) + 1970), 1), c, rng')
    | _ => ((Value.goNil, 0), c, rng0)

/-- Go `int32(v)` conversion: two's-complement truncation to 32 bits. -/
def toInt32 (v : ℤ) : ℤ :=
  Int.bmod v (2 ^ 32)

/-- Row loop of `generateInt64Parquet`: at a null row the definition level is
0 and the buffer slot keeps its previous content; otherwise `generateInt` is
called at `rowID + i` and its (possibly written-through) spec is threaded. -/
def fillInt64Rows (c : ColumnSpec) (rowID : ℕ) (out : List ℤ)
    (nulls : List Bool) (rng : Rng) : List ℤ × List ℕ × ColumnSpec × Rng :=
  match out, nulls with
  | [], _ => ([], [], c, rng)
  | o :: os, [] => (o :: os, [], c, rng)
  | o :: os, b :: bs =>
    if b then
      let r := fillInt64Rows c (rowID + 1) os bs rng
      (o :: r.1, 0 :: r.2.1, r.2.2)
    else
      let g := c.generateInt rowID rng
      let r := fillInt64Rows g.2.1 (rowID + 1) os bs g.2.2
      (g.1 :: r.1, 1 :: r.2.1, r.2.2)

/-- `generateInt64Parquet` from `src/src/spec/data_gen.go`. -/
def ColumnSpec.generateInt64Parquet (c : ColumnSpec) (rowID : ℕ)
    (out : List ℤ) (rng : Rng) : List ℤ × List ℕ × ColumnSpec × Rng :=
  let n := c.generateBatchNull out.length rng
  fillInt64Rows c rowID out n.1 n.2

/-- Row loop of `generateInt32Parquet` (`out[i] = int32(generateInt(...))`). -/
def fillInt32Rows (c : ColumnSpec) (rowID : ℕ) (out : List ℤ)
    (nulls : List Bool) (rng : Rng) : List ℤ × List ℕ × ColumnSpec × Rng :=
  match out, nulls with
  | [], _ => ([], [], c, rng)
  | o :: os, [] => (o :: os, [], c, rng)
  | o :: os, b :: bs =>
    if b then
      let r := fillInt32Rows c (rowID + 1) os bs rng
      (o :: r.1, 0 :: r.2.1, r.2.2)
    else
      let g := c.generateInt rowID rng
      let r := fillInt32Rows g.2.1 (rowID + 1) os bs g.2.2
      (toInt32 g.1 :: r.1, 1 :: r.2.1, r.2.2)

/-- `generateInt32Parquet` from `src/src/spec/data_gen.go`. -/
def ColumnSpec.generateInt32Parquet (c : ColumnSpec) (rowID : ℕ)
    (out : List ℤ) (rng : Rng) : List ℤ × List ℕ × ColumnSpec × Rng :=
  let n := c.generateBatchNull out.length rng
  fillInt32Rows c rowID out n.1 n.2

/-- Row loop of the float fillers.  Note the source quirk: `generateInt` is
called at the constant `rowID`, not `rowID + i`. -/
def fillFloatRows (c : ColumnSpec) (rowID : ℕ) (out : List ℚ)
    (nulls : List Bool) (rng : Rng) : List ℚ × List ℕ × ColumnSpec × Rng :=
  match out, nulls with
  | [], _ => ([], [], c, rng)
  | o :: os, [] => (o :: os, [], c, rng)
  | o :: os, b :: bs =>
    if b then
      let r := fillFloatRows c rowID os bs rng
      (o :: r.1, 0 :: r.2.1, r.2.2)
    else
      let g := c.generateInt rowID rng
      let r := fillFloatRows g.2.1 rowID os bs g.2.2
      (((g.1 : ℚ) + 1/10) :: r.1, 1 :: r.2.1, r.2.2)

/-- `generateFloat64Parquet` from `src/src/spec/data_gen.go`
(`out[i] = float64(generateInt(rowID, rng)) + 0.1`, floats as `ℚ`). -/
def ColumnSpec.generateFloat64Parquet (c : ColumnSpec) (rowID : ℕ)
    (out : List ℚ) (rng : Rng) : List ℚ × List ℕ × ColumnSpec × Rng :=
  let n := c.generateBatchNull out.length rng
  fillFloatRows c rowID out n.1 n.2

/-- `generateFloat32Parquet` from `src/src/spec/data_gen.go` (same shape as
the float64 filler; `float32` rounding is not modelled). -/
def ColumnSpec.generateFloat32Parquet (c : ColumnSpec) (rowID : ℕ)
    (out : List ℚ) (rng : Rng) : List ℚ × List ℕ × ColumnSpec × Rng :=
  let n := c.generateBatchNull out.length rng
  fillFloatRows c rowID out n.1 n.2

/-- `pow10Int64` from `src/src/spec/data_gen.go` (as `ℤ`; overflow-free for
the `p ≤ 18` range this path is reached with). -/
def pow10Int64 (p : ℕ) : ℤ :=
  (10 : ℤ) ^ p

/-- Rows of `generateDecimalInt64Batch` when `IntSet` is non-empty: `-1` for
null rows, otherwise a uniform draw from `IntSet`. -/
def decimalRowsFromSet (intSet : List ℤ) : List Bool → Rng → List ℤ × Rng
  | [], rng => ([], rng)
  | b :: bs, rng =>
    if b then
      let r := decimalRowsFromSet intSet bs rng
      (-1 :: r.1, r.2)
    else
      let d := rng.intn intSet.length
      let r := decimalRowsFromSet intSet bs d.2
      (intSet.getD d.1 0 :: r.1, r.2)

/-- Rows of `generateDecimalInt64Batch` when `IntSet` is empty: `-1` for null
rows, otherwise `rng.Int63n(10^precision)`. -/
def decimalRowsRandom (limit : ℕ) : List Bool → Rng → List ℤ × Rng
  | [], rng => ([], rng)
  | b :: bs, rng =>
    if b then
      let r := decimalRowsRandom limit bs rng
      (-1 :: r.1, r.2)
    else
      let d := rng.int63n limit
      let r := decimalRowsRandom limit bs d.2
      ((d.1 : ℤ) :: r.1, r.2)

/-- `generateDecimalInt64Batch` from `src/src/spec/data_gen.go`: unscaled
decimal values with `-1` as the null sentinel. -/
def ColumnSpec.generateDecimalInt64Batch (c : ColumnSpec) (batch : ℕ)
    (rng : Rng) : List ℤ × Rng :=
  let n := c.generateBatchNull batch rng
  if c.intSet.length > 0 then
    decimalRowsFromSet c.intSet n.1 n.2
  else
    decimalRowsRandom (pow10Int64 c.precision).toNat n.1 n.2

/-- Second loop of `generateDecimalInt64Parquet`: a negative unscaled value
yields definition level 0 and leaves the buffer slot untouched. -/
def applyDecimalInt64 : List ℤ → List ℤ → List ℤ × List ℕ
  | [], _ => ([], [])
  | o :: os, [] => (o :: os, [])
  | o :: os, u :: us =>
    let r := applyDecimalInt64 os us
    if u < 0 then (o :: r.1, 0 :: r.2) else (u :: r.1, 1 :: r.2)

/-- `generateDecimalInt64Parquet` from `src/src/spec/data_gen.go`. -/
def ColumnSpec.generateDecimalInt64Parquet (c : ColumnSpec) (out : List ℤ)
    (rng : Rng) : List ℤ × List ℕ × Rng :=
  let u := c.generateDecimalInt64Batch out.length rng
  let r := applyDecimalInt64 out u.1
  (r.1, r.2, u.2)

/-- Second loop of `generateDecimalInt32Parquet` (`out[i] = int32(u)`). -/
def applyDecimalInt32 : List ℤ → List ℤ → List ℤ × List ℕ
  | [], _ => ([], [])
  | o :: os, [] => (o :: os, [])
  | o :: os, u :: us =>
    let r := applyDecimalInt32 os us
    if u < 0 then (o :: r.1, 0 :: r.2) else (toInt32 u :: r.1, 1 :: r.2)

/-- `generateDecimalInt32Parquet` from `src/src/spec/data_gen.go`. -/
def ColumnSpec.generateDecimalInt32Parquet (c : ColumnSpec) (out : List ℤ)
    (rng : Rng) : List ℤ × List ℕ × Rng :=
  let u := c.generateDecimalInt64Batch out.length rng
  let r := applyDecimalInt32 out u.1
  (r.1, r.2, u.2)

/-- `big.Int.Bytes()`: minimal big-endian base-256 digits of the magnitude
(empty for 0). -/
def natBytesBE (n : ℕ) : List ℕ :=
  if h : n = 0 then []
  else
    have : n / 256 < n := Nat.div_lt_self (Nat.pos_of_ne_zero h) (by norm_num)
    natBytesBE (n / 256) ++ [n % 256]

/-- Big-endian bytes to `ℕ` (`big.Int.SetBytes`). -/
def beBytesToNat (l : List ℕ) : ℕ :=
  l.foldl (fun acc b => acc * 256 + b) 0

/-- `fixedLenDecimalFromInt64` from `src/src/spec/data_gen.go`: magnitude
bytes truncated to the low `byteLen` bytes, left-padded with `0x00`
(`0xFF` when the unscaled value is negative). -/
def fixedLenDecimalFromInt64 (unscaled : ℤ) (byteLen : ℕ) : List ℕ :=
  let b := natBytesBE unscaled.natAbs
  let b := if b.length > byteLen then b.drop (b.length - byteLen) else b
  if unscaled < 0 then
    List.replicate (byteLen - b.length) 0xFF ++ b
  else
    List.replicate (byteLen - b.length) 0 ++ b

/-- `generateFixedLenDecimalBytes` from `src/src/spec/data_gen.go`:
`byteLen + 1` random bytes reduced modulo `10^precision`, re-encoded
big-endian and left-padded to `byteLen`. -/
def generateFixedLenDecimalBytes (precision byteLen : ℕ) (rng : Rng) :
    List ℕ × Rng :=
  let limit := 10 ^ precision
  let (buf, rng') := rng.read (byteLen + 1)
  let v := beBytesToNat buf % limit
  let b := natBytesBE v
  let b := if b.length > byteLen then b.drop (b.length - byteLen) else b
  (List.replicate (byteLen - b.length) 0 ++ b, rng')

/-- Row loop of `generateDecimalFixedLenParquet`. -/
def fillDecimalFixedRows (c : ColumnSpec) (out : List (List ℕ))
    (nulls : List Bool) (rng : Rng) : List (List ℕ) × List ℕ × Rng :=
  match out, nulls with
  | [], _ => ([], [], rng)
  | o :: os, [] => (o :: os, [], rng)
  | o :: os, b :: bs =>
    if b then
      let r := fillDecimalFixedRows c os bs rng
      (o :: r.1, 0 :: r.2.1, r.2.2)
    else if c.intSet.length > 0 then
      let d := rng.intn c.intSet.length
      let v := fixedLenDecimalFromInt64 (c.intSet.getD d.1 0) c.typeLen
      let r := fillDecimalFixedRows c os bs d.2
      (v :: r.1, 1 :: r.2.1, r.2.2)
    else
      let g := generateFixedLenDecimalBytes c.precision c.typeLen rng
      let r := fillDecimalFixedRows c os bs g.2
      (g.1 :: r.1, 1 :: r.2.1, r.2.2)

/-- `generateDecimalFixedLenParquet` from `src/src/spec/data_gen.go`. -/
def ColumnSpec.generateDecimalFixedLenParquet (c : ColumnSpec)
    (out : List (List ℕ)) (rng : Rng) : List (List ℕ) × List ℕ × Rng :=
  let n := c.generateBatchNull out.length rng
  fillDecimalFixedRows c out n.1 n.2

/-- Row loop of `generateYearParquet` (`int32(rng.Int63()%50 + 2000)`). -/
def fillYearRows (out : List ℤ) (nulls : List Bool) (rng : Rng) :
    List ℤ × List ℕ × Rng :=
  match out, nulls with
  | [], _ => ([], [], rng)
  | o :: os, [] => (o :: os, [], rng)
  | o :: os, b :: bs =>
    if b then
      let r := fillYearRows os bs rng
      (o :: r.1, 0 :: r.2.1, r.2.2)
    else
      let v := rng.int63
      let r := fillYearRows os bs v.2
      (toInt32 ((v.1 % 50 : ℕ) + 2000) :: r.1, 1 :: r.2.1, r.2.2)

/-- `generateYearParquet` from `src/src/spec/data_gen.go`. -/
def ColumnSpec.generateYearParquet (c : ColumnSpec) (out : List ℤ)
    (rng : Rng) : List ℤ × List ℕ × Rng :=
  let n := c.generateBatchNull out.length rng
  fillYearRows out n.1 n.2

/-- Row loop of `generateTimestampParquet`
(`rng.Int63() % 1576800000000000`, ~50 years of microseconds). -/
def fillTimestampRows (out : List ℤ) (nulls : List Bool) (rng : Rng) :
    List ℤ × List ℕ × Rng :=
  match out, nulls with
  | [], _ => ([], [], rng)
  | o :: os, [] => (o :: os, [], rng)
  | o :: os, b :: bs =>
    if b then
      let r := fillTimestampRows os bs rng
      (o :: r.1, 0 :: r.2.1, r.2.2)
    else
      let v := rng.int63
      let r := fillTimestampRows os bs v.2
      (((v.1 % 1576800000000000 : ℕ) : ℤ) :: r.1, 1 :: r.2.1, r.2.2)

/-- `generateTimestampParquet` from `src/src/spec/data_gen.go`. -/
def ColumnSpec.generateTimestampParquet (c : ColumnSpec) (out : List ℤ)
    (rng : Rng) : List ℤ × List ℕ × Rng :=
  let n := c.generateBatchNull out.length rng
  fillTimestampRows out n.1 n.2

/-- Row loop of `generateDateParquet` (`rng.Int31() & 16383`). -/
def fillDateRows (out : List ℤ) (nulls : List Bool) (rng : Rng) :
    List ℤ × List ℕ × Rng :=
  match out, nulls with
  | [], _ => ([], [], rng)
  | o :: os, [] => (o :: os, [], rng)
  | o :: os, b :: bs =>
    if b then
      let r := fillDateRows os bs rng
      (o :: r.1, 0 :: r.2.1, r.2.2)
    else
      let v := rng.int31
      let r := fillDateRows os bs v.2
      (((v.1 % 16384 : ℕ) : ℤ) :: r.1, 1 :: r.2.1, r.2.2)

/-- `generateDateParquet` from `src/src/spec/data_gen.go`. -/
def ColumnSpec.generateDateParquet (c : ColumnSpec) (out : List ℤ)
    (rng : Rng) : List ℤ × List ℕ × Rng :=
  let n := c.generateBatchNull out.length rng
  fillDateRows out n.1 n.2

/-- Row loop of `generateJSONParquet` (constant placeholder bytes). -/
def fillJSONRows (out : List String) (nulls : List Bool) :
    List String × List ℕ :=
  match out, nulls with
  | [], _ => ([], [])
  | o :: os, [] => (o :: os, [])
  | o :: os, b :: bs =>
    let r := fillJSONRows os bs
    if b then (o :: r.1, 0 :: r.2)
    else ("[1,2,3,4,5]" :: r.1, 1 :: r.2)

/-- `generateJSONParquet` from `src/src/spec/data_gen.go`. -/
def ColumnSpec.generateJSONParquet (c : ColumnSpec) (out : List String)
    (rng : Rng) : List String × List ℕ × Rng :=
  let n := c.generateBatchNull out.length rng
  let r := fillJSONRows out n.1
  (r.1, r.2, n.2)

/-- Value-set rows of `generateStringParquet`. -/
def fillStringSetRows (valueSet : List String) (out : List String) :
    List Bool → Rng → List String × List ℕ × Rng :=
  fun nulls rng =>
    match out, nulls with
    | [], _ => ([], [], rng)
    | o :: os, [] => (o :: os, [], rng)
    | o :: os, b :: bs =>
      if b then
        let r := fillStringSetRows valueSet os bs rng
        (o :: r.1, 0 :: r.2.1, r.2.2)
      else
        let d := rng.intn valueSet.length
        let r := fillStringSetRows valueSet os bs d.2
        (valueSet.getD d.1 "" :: r.1, 1 :: r.2.1, r.2.2)

/-- The buffer-building loop of `generateStringParquet`: one compressed
random string of the shared length per row, consumed for every row (null or
not). -/
def compressRows (slen compress : ℕ) : ℕ → Rng → List String × Rng
  | 0, rng => ([], rng)
  | n + 1, rng =>
    let g := generateStringWithCompress slen compress rng
    let r := compressRows slen compress n g.2
    (String.mk g.1 :: r.1, r.2)

/-- Assignment loop of `generateStringParquet` in the random branch: null
rows keep the buffer slot, others receive their slice of the shared buffer. -/
def applyStringRows (out : List String) : List Bool → List String →
    List String × List ℕ
  | _, [] =>
    match out with
    | [] => ([], [])
    | o :: os => (o :: os, [])
  | nulls, s :: ss =>
    match out, nulls with
    | [], _ => ([], [])
    | o :: os, [] => (o :: os, [])
    | o :: os, b :: bs =>
      let r := applyStringRows os bs ss
      if b then (o :: r.1, 0 :: r.2) else (s :: r.1, 1 :: r.2)

/-- `generateStringParquet` from `src/src/spec/data_gen.go`.  Note that
`IsUnique` is never consulted: the value set wins when non-empty, otherwise
all rows share one random length `slen ∈ [MinLen, TypeLen]`. -/
def ColumnSpec.generateStringParquet (c : ColumnSpec) (out : List String)
    (rng : Rng) : List String × List ℕ × Rng :=
  let n := c.generateBatchNull out.length rng
  if c.valueSet.length > 0 then
    fillStringSetRows c.valueSet out n.1 n.2
  else
    let lower := c.minLen
    let upper := c.typeLen
    let v := n.2.intn (upper - lower + 1)
    let slen := v.1 + lower
    let b := compressRows slen c.compress out.length v.2
    let r := applyStringRows out n.1 b.1
    (r.1, r.2, b.2)

/-- The `valueBuffer any` argument of `FillParquetBatch`: one variant per Go
slice type the type switch accepts. -/
inductive ValueBuffer where
  | i32 (xs : List ℤ)
  | i64 (xs : List ℤ)
  | f32 (xs : List ℚ)
  | f64 (xs : List ℚ)
  | flba (xs : List (List ℕ))
  | ba (xs : List String)
deriving DecidableEq, Repr

/-- `FillParquetBatch` from `src/src/spec/data_gen.go`: dispatch on
`SQLType` (and `Type` for decimals), with the buffer type assertions of the
source; the possibly written-through spec is threaded outside the `Except`,
mirroring the pointer receiver. -/
def ColumnSpec.fillParquetBatch (c : ColumnSpec) (rowID : ℕ)
    (buf : ValueBuffer) (rng : Rng) :
    Except String (ValueBuffer × List ℕ) × ColumnSpec × Rng :=
  match c.sqlType with
  | "decimal" =>
    match c.type with
    | ParquetType.int32 =>
      match buf with
      | ValueBuffer.i32 xs =>
        let r := c.generateDecimalInt32Parquet xs rng
        (Except.ok (ValueBuffer.i32 r.1, r.2.1), c, r.2.2)
      | _ => (Except.error "unexpected buffer type for decimal int32", c, rng)
    | ParquetType.int64 =>
      match buf with
      | ValueBuffer.i64 xs =>
        let r := c.generateDecimalInt64Parquet xs rng
        (Except.ok (ValueBuffer.i64 r.1, r.2.1), c, r.2.2)
      | _ => (Except.error "unexpected buffer type for decimal int64", c, rng)
    | ParquetType.fixedLenByteArray =>
      match buf with
      | ValueBuffer.flba xs =>
        let r := c.generateDecimalFixedLenParquet xs rng
        (Except.ok (ValueBuffer.flba r.1, r.2.1), c, r.2.2)
      | _ =>
        (Except.error "unexpected buffer type for decimal fixed len", c, rng)
    | _ => (Except.error "unsupported decimal parquet type", c, rng)
  | "bigint" =>
    match buf with
    | ValueBuffer.i64 xs =>
      let r := c.generateInt64Parquet rowID xs rng
      (Except.ok (ValueBuffer.i64 r.1, r.2.1), r.2.2.1, r.2.2.2)
    | _ => (Except.error "unexpected buffer type for bigint", c, rng)
  | "int" | "mediumint" | "smallint" | "tinyint" =>
    match buf with
    | ValueBuffer.i32 xs =>
      let r := c.generateInt32Parquet rowID xs rng
      (Except.ok (ValueBuffer.i32 r.1, r.2.1), r.2.2.1, r.2.2.2)
    | _ => (Except.error "unexpected buffer type for int", c, rng)
  | "float" =>
    match buf with
    | ValueBuffer.f32 xs =>
      let r := c.generateFloat32Parquet rowID xs rng
      (Except.ok (ValueBuffer.f32 r.1, r.2.1), r.2.2.1, r.2.2.2)
    | _ => (Except.error "unexpected buffer type for float", c, rng)
  | "double" =>
    match buf with
    | ValueBuffer.f64 xs =>
      let r := c.generateFloat64Parquet rowID xs rng
      (Except.ok (ValueBuffer.f64 r.1, r.2.1), r.2.2.1, r.2.2.2)
    | _ => (Except.error "unexpected buffer type for double", c, rng)
  | "varchar" | "char" | "blob" | "tinyblob" =>
    match buf with
    | ValueBuffer.ba xs =>
      let r := c.generateStringParquet xs rng
      (Except.ok (ValueBuffer.ba r.1, r.2.1), c, r.2.2)
    | _ => (Except.error "unexpected buffer type for string", c, rng)
  | "json" =>
    match buf with
    | ValueBuffer.ba xs =>
      let r := c.generateJSONParquet xs rng
      (Except.ok (ValueBuffer.ba r.1, r.2.1), c, r.2.2)
    | _ => (Except.error "unexpected buffer type for json", c, rng)
  | "date" =>
    match buf with
    | ValueBuffer.i32 xs =>
      let r := c.generateDateParquet xs rng
      (Except.ok (ValueBuffer.i32 r.1, r.2.1), c, r.2.2)
    | _ => (Except.error "unexpected buffer type for date", c, rng)
  | "timestamp" | "datetime" | "time" =>
    match buf with
    | ValueBuffer.i64 xs =>
      let r := c.generateTimestampParquet xs rng
      (Except.ok (ValueBuffer.i64 r.1, r.2.1), c, r.2.2)
    | _ => (Except.error "unexpected buffer type for time", c, rng)
  | "year" =>
    match buf with
    | ValueBuffer.i32 xs =>
      let r := c.generateYearParquet xs rng
      (Except.ok (ValueBuffer.i32 r.1, r.2.1), c, r.2.2)
    | _ => (Except.error "unexpected buffer type for year", c, rng)
  | _ => (Except.error ("unsupported column writer type: " ++ c.sqlType), c, rng)

/-- Halving recursion for `bitLen`, structural in a fuel argument so that
it evaluates by kernel reduction; `fuel ≥ n` always suffices because
halving a positive number strictly decreases it. -/
def bitLenFuel : ℕ → ℕ → ℕ
  | _, 0 => 0
  | 0, _ + 1 => 0
  | fuel + 1, n + 1 => bitLenFuel fuel ((n + 1) / 2) + 1

/-- `big.Int.BitLen`: number of bits of the magnitude (0 for 0). -/
def bitLen (n : ℕ) : ℕ :=
  bitLenFuel n n

/-- `decimalMaxDigitsBits` from `src/src/spec/decimal.go`:
`BitLen(10^precision − 1)`. -/
def decimalMaxDigitsBits (precision : ℕ) : ℕ :=
  if precision = 0 then 0 else bitLen (10 ^ precision - 1)

/-- `deduceTypeForDecimal` from `src/src/spec/decimal.go`: physical type and
fixed byte length for a decimal of the given precision. -/
def deduceTypeForDecimal (precision : ℕ) : ParquetType × ℕ :=
  if precision ≤ 9 then (ParquetType.int32, 0)
  else if precision ≤ 18 then (ParquetType.int64, 0)
  else
    let bits := decimalMaxDigitsBits precision + 1
    (ParquetType.fixedLenByteArray, (bits + 7) / 8)

/-- `[common]` of `src/src/config/config.go` (`Prefix` is rendered as
`filePrefix`; derived `ChunkSizeBytes` included). -/
structure CommonConfig where
  path : String := ""
  filePrefix : String := ""
  folders : ℤ := 0
  startFileNo : ℤ := 0
  endFileNo : ℤ := 0
  rows : ℤ := 0
  fileFormat : String := ""
  useStreamingMode : Bool := false
  chunkSize : String := ""
  chunkSizeBytes : ℤ := 0
deriving DecidableEq, Repr

/-- `[parquet]` of `src/src/config/config.go`. -/
structure ParquetConfig where
  pageSize : String := ""
  numRowGroups : ℤ := 0
  compression : String := ""
  pageSizeBytes : ℤ := 0
deriving DecidableEq, Repr

/-- `Config` from `src/src/config/config.go`; the `[s3]`/`[gcs]` sections
are modelled by their presence only, which is all `Validate` inspects. -/
structure Config where
  common : CommonConfig
  parquet : ParquetConfig
  hasS3 : Bool := false
  hasGCS : Bool := false
deriving DecidableEq, Repr

/-- ASCII lower-casing of one character (`strings.ToLower` restricted to
the ASCII range the recognised format names use). -/
def asciiLower (c : Char) : Char :=
  if 65 ≤ c.toNat ∧ c.toNat ≤ 90 then Char.ofNat (c.toNat + 32) else c

/-- `strings.ToLower`. -/
def strToLower (s : String) : String :=
  String.mk (s.data.map asciiLower)

/-- Whitespace recognised by `strings.TrimSpace` (ASCII subset). -/
def isSpaceChar (c : Char) : Bool :=
  c = ' ' ∨ c = '\t' ∨ c = '\n' ∨ c = '\r'

/-- `strings.TrimSpace`. -/
def strTrim (s : String) : String :=
  String.mk (((s.data.dropWhile isSpaceChar).reverse.dropWhile
    isSpaceChar).reverse)

/-- `Validate` from `src/src/config/config.go` as the list of collected
error strings, in source order; the Go function returns an error iff this
list is non-empty.  Go `%` on `int` is truncated division (`Int.tmod`). -/
def validate (cfg : Config) : List String :=
  let format := strToLower (strTrim cfg.common.fileFormat)
  (if cfg.common.path = "" then ["common.path is required"] else []) ++
  (if cfg.common.filePrefix = "" then ["common.prefix is required"] else []) ++
  (if cfg.common.endFileNo ≤ cfg.common.startFileNo then
    ["common.end_fileno must be greater than common.start_fileno"] else []) ++
  (if cfg.common.rows ≤ 0 then
    ["common.rows must be greater than 0"] else []) ++
  (if cfg.common.folders < 0 then
    ["common.folders must be >= 0"] else []) ++
  (if format = "csv" ∨ format = "parquet" then []
   else ["common.format must be csv or parquet"]) ++
  (if cfg.common.chunkSize ≠ "" ∧ cfg.common.chunkSizeBytes ≤ 0 then
    ["common.chunk_size must be greater than 0"] else []) ++
  (if format = "parquet" then
    (if cfg.parquet.numRowGroups ≤ 0 then
      ["parquet.row_groups must be greater than 0"]
     else if cfg.common.rows > 0 ∧
         Int.tmod cfg.common.rows cfg.parquet.numRowGroups ≠ 0 then
      ["parquet.row_groups must divide common.rows"]
     else []) ++
    (if cfg.parquet.pageSizeBytes ≤ 0 then
      ["parquet.page_size must be greater than 0"] else [])
   else []) ++
  (if cfg.hasS3 ∧ cfg.hasGCS then
    ["only one of [s3] or [gcs] can be configured"] else [])

/-- `BatchSize` from the Parquet generator. -/
def BatchSize : ℕ := 50

/-- The `panic` guard of `ParquetWriter.Init`:
`rowsPerRowGroup := rows / rowGroups` (Go truncated division), panic when
`rowsPerRowGroup % BatchSize != 0`.  This runs only after an object-store
writer has been handed to the generator, not during validation. -/
def parquetInitPanics (rows rowGroups : ℤ) : Bool :=
  Int.tmod (Int.tdiv rows rowGroups) (BatchSize : ℤ) != 0

/-- The file numbers iterated by `Orchestrator.Run`
(`for fileNo := startNo; fileNo < endNo; fileNo++`); one object-store
`Create` is issued per element (by `openWriter`, in either mode). -/
def runFileNos (cfg : Config) : List ℤ :=
  (List.range (cfg.common.endFileNo - cfg.common.startFileNo).toNat).map
    (fun k => cfg.common.startFileNo + k)

/-- `Orchestrator.Run` from the generator package, over an oracle giving
each per-file task's outcome: `eg.Wait` surfaces the first error of the
spawned tasks and `Run` returns it, `nil` otherwise. -/
def orchestratorRun (cfg : Config) (fileResult : ℤ → Except String Unit) :
    Except String Unit :=
  (runFileNos cfg).foldl
    (fun acc fileNo =>
      match acc with
      | Except.error e => Except.error e
      | Except.ok _ => fileResult fileNo)
    (Except.ok ())

/-- `util.FileChunk`. -/
structure FileChunk where
  data : List ℕ
  isLast : Bool
deriving DecidableEq, Repr

/-- `streamingParquetWriter` from the Parquet generator: in-memory buffer
plus the offset of the last byte handed to the chunk channel.  The channel
itself is modelled by returning the emitted chunks in order; context
cancellation (the error path) is not modelled. -/
structure StreamingParquetWriter where
  buffer : List ℕ
  chunkSize : ℕ
  lastSent : ℕ
deriving DecidableEq, Repr

/-- The send loop of `streamingParquetWriter.Write`: while
`buffer.Len() − lastSent ≥ chunkSize`, copy out one `chunkSize`-byte chunk
with `is_last = false` and advance `lastSent`.  The `0 < chunkSize`
conjunct is the termination guard: Go would loop forever on a zero chunk
size, which the constructors never produce (8 MiB default, or a positive
configured size). -/
def spwSendLoop (w : StreamingParquetWriter) :
    StreamingParquetWriter × List FileChunk :=
  if h : 0 < w.chunkSize ∧ w.chunkSize ≤ w.buffer.length - w.lastSent then
    let chunk : FileChunk := ⟨(w.buffer.drop w.lastSent).take w.chunkSize, false⟩
    let r := spwSendLoop { w with lastSent := w.lastSent + w.chunkSize }
    (r.1, chunk :: r.2)
  else (w, [])
termination_by w.buffer.length - w.lastSent
decreasing_by
  omega

/-- `streamingParquetWriter.Write`: append, drain full chunks, then compact
the buffer once `lastSent ≥ 4·chunkSize`. -/
def spwWrite (w : StreamingParquetWriter) (data : List ℕ) :
    StreamingParquetWriter × List FileChunk :=
  let r := spwSendLoop { w with buffer := w.buffer ++ data }
  let w1 := r.1
  let w2 :=
    if w1.chunkSize * 4 ≤ w1.lastSent then
      { w1 with buffer := w1.buffer.drop w1.lastSent, lastSent := 0 }
    else w1
  (w2, r.2)

/-- `streamingParquetWriter.Close`: emit the remaining buffered bytes
(possibly empty) with `is_last = true`. -/
def spwClose (w : StreamingParquetWriter) : FileChunk :=
  if 0 < w.buffer.length - w.lastSent then
    ⟨w.buffer.drop w.lastSent, true⟩
  else ⟨[], true⟩

/-- Fold `Write` over a sequence of encoder writes. -/
def spwRunWrites (w : StreamingParquetWriter) :
    List (List ℕ) → StreamingParquetWriter × List FileChunk
  | [] => (w, [])
  | d :: ds =>
    let s := spwWrite w d
    let r := spwRunWrites s.1 ds
    (r.1, s.2 ++ r.2)

/-- Fresh streaming writer for one file. -/
def spwInit (chunkSize : ℕ) : StreamingParquetWriter :=
  ⟨[], chunkSize, 0⟩

/-- All chunks emitted for one file: the writes' chunks followed by the
closing chunk. -/
def spwRun (chunkSize : ℕ) (writes : List (List ℕ)) : List FileChunk :=
  let r := spwRunWrites (spwInit chunkSize) writes
  r.2 ++ [spwClose r.1]

/-- Modelled from the spec: the `create` entry-point wiring (the current
`main` that connects `config.Validate` to `Orchestrator.Run` is not among
the sources; only both ends are).  §4.8: the orchestrator "parses config and
SQL, validates, picks format, … drives the coordinator"; §7: a
configuration error is "reported before any work starts, fatal", with a
non-zero exit code.  So: validate first, run only on success. -/
def createOperation (cfg : Config) (fileResult : ℤ → Except String Unit) :
    Except String Unit :=
  match validate cfg with
  | [] => orchestratorRun cfg fileResult
  | e :: _ => Except.error e

/-- The all-zero random stream (one concrete PRNG execution). -/
def rng0 : Rng :=
  ⟨fun _ => 0, 0⟩

/-- The spec `GetSpecFromSQL` derives for `id BIGINT PRIMARY KEY`:
the `bigint` template (`INT64`, `TypeLen` 64, signed), default
`random_order`, `Compress` 100, `MinLen` 48, `IsUnique` set by the
primary-key pass. -/
def uniqueBigintSpec : ColumnSpec :=
  { origName := "id", sqlType := "bigint", type := ParquetType.int64,
    typeLen := 64, minLen := 48, signed := true, isUnique := true,
    order := NumericOrder.randomOrder, compress := 100 }

/-- A non-unique `bigint` column with `order=random_order` in its comment. -/
def randomBigintSpec : ColumnSpec :=
  { origName := "v", sqlType := "bigint", type := ParquetType.int64,
    typeLen := 64, minLen := 48, signed := true,
    order := NumericOrder.randomOrder, compress := 100 }

/-- The spec `GetSpecFromSQL` derives for `y YEAR`: the `year` template
(`INT32`, `TypeLen` 8, signed), default `random_order`, `Compress` 100,
`MinLen` 6. -/
def yearSpec : ColumnSpec :=
  { origName := "y", sqlType := "year", type := ParquetType.int32,
    typeLen := 8, minLen := 6, signed := true,
    order := NumericOrder.randomOrder, compress := 100 }

/-- A unique `varchar` column carrying `set=["ab"]` in its comment. -/
def uniqueSetStringSpec : ColumnSpec :=
  { origName := "s", sqlType := "varchar", type := ParquetType.byteArray,
    typeLen := 64, minLen := 48, isUnique := true,
    order := NumericOrder.randomOrder, compress := 100,
    valueSet := ["ab"] }

/-- A unique `varchar` column without a value set. -/
def uniqueStringSpec : ColumnSpec :=
  { origName := "u", sqlType := "varchar", type := ParquetType.byteArray,
    typeLen := 64, minLen := 48, isUnique := true,
    order := NumericOrder.randomOrder, compress := 100 }

/-- A `decimal(5,2)` column with the negative literal `-5` in its
`set=[...]` comment (`INT32` physical type since precision ≤ 9). -/
def negSetDecimalSpec : ColumnSpec :=
  { origName := "d", sqlType := "decimal", type := ParquetType.int32,
    typeLen := 0, precision := 5, scale := 2,
    order := NumericOrder.randomOrder, compress := 100,
    intSet := [-5] }

/-- Same decimal column at `INT64` width (`precision` 12). -/
def negSetDecimal64Spec : ColumnSpec :=
  { origName := "d", sqlType := "decimal", type := ParquetType.int64,
    typeLen := 0, precision := 12, scale := 2,
    order := NumericOrder.randomOrder, compress := 100,
    intSet := [-5] }

/-- A parquet configuration whose `rows` (10) is divisible by
`row_groups` (1) but not by `row_groups × 50`. -/
def cfgRows10 : Config :=
  { common := { path := "/tmp/out", filePrefix := "t", folders := 0,
                startFileNo := 0, endFileNo := 1, rows := 10,
                fileFormat := "parquet", useStreamingMode := false,
                chunkSize := "", chunkSizeBytes := 0 },
    parquet := { pageSize := "", numRowGroups := 1, compression := "zstd",
                 pageSizeBytes := 1048576 } }

/-- An otherwise-valid CSV configuration with
`start_fileno = end_fileno = 5`. -/
def cfgStartEqEnd : Config :=
  { common := { path := "/tmp/out", filePrefix := "t", folders := 0,
                startFileNo := 5, endFileNo := 5, rows := 100,
                fileFormat := "csv", useStreamingMode := true,
                chunkSize := "", chunkSizeBytes := 0 },
    parquet := { pageSize := "", numRowGroups := 0, compression := "",
                 pageSizeBytes := 0 } }

/-! ## Theorems -/

/-- C8: for an integer column with empty `int_set`, `stddev = 0` and
`is_unique = false`, `generateInt` returns `rowID` under `total_order`;
under `partial_order` it returns
`((rowID·1000000007) mod 32)·2^(type_len−6) + rowID` exactly when
`rowID % 32 == 0` and `rowID` otherwise; under `random_order` it always
returns that partial-order value. -/
theorem generateInt_order_cases (c : ColumnSpec) (rowID : ℕ) (rng : Rng)
    (hset : c.intSet = []) (hsd : c.stdDev = 0) (huniq : c.isUnique = false) :
    (c.order = NumericOrder.totalOrder →
      (c.generateInt rowID rng).1 = (rowID : ℤ)) ∧
    (c.order = NumericOrder.partialOrder →
      (c.generateInt rowID rng).1 =
        (if rowID % 32 = 0 then
          ((rowID * 1000000007 % 32) * 2 ^ (c.typeLen - 6) + rowID : ℕ)
        else (rowID : ℕ))) ∧
    (c.order = NumericOrder.randomOrder →
      (c.generateInt rowID rng).1 =
        ((rowID * 1000000007 % 32) * 2 ^ (c.typeLen - 6) + rowID : ℕ)) := by
  refine ⟨fun ho => ?_, fun ho => ?_, fun ho => ?_⟩ <;>
    simp [ColumnSpec.generateInt, ColumnSpec.generatePartialOrderInt,
      hset, hsd, huniq, ho]
  split <;> simp

/-- Witness for C8 at a concrete spec (`random_order`, `TypeLen` 64) and
row 7: the value is `(7·1000000007 mod 32)·2^58 + 7`. -/
theorem generateInt_order_cases_witness :
    (randomBigintSpec.generateInt 7 rng0).1 = 4899916394579099655 := by
  have h := (generateInt_order_cases randomBigintSpec 7 rng0 rfl rfl rfl).2.2 rfl
  rw [h]
  decide

/-- C9: `deduceTypeForDecimal` yields INT32 for precision ≤ 9, INT64 for
10 ≤ precision ≤ 18, and otherwise FIXED_LEN_BYTE_ARRAY of
`(BitLen(10^p − 1) + 1 + 7) / 8` bytes (the ceiling of
`(BitLen(10^p − 1) + 1)/8`). -/
theorem deduceTypeForDecimal_cases (p : ℕ) (hp : 0 < p) :
    (p ≤ 9 → deduceTypeForDecimal p = (ParquetType.int32, 0)) ∧
    (10 ≤ p → p ≤ 18 → deduceTypeForDecimal p = (ParquetType.int64, 0)) ∧
    (18 < p → deduceTypeForDecimal p =
      (ParquetType.fixedLenByteArray, (bitLen (10 ^ p - 1) + 1 + 7) / 8)) := by
  refine ⟨fun h9 => ?_, fun h10 h18 => ?_, fun h18 => ?_⟩
  · simp [deduceTypeForDecimal, h9]
  · have h9 : ¬ p ≤ 9 := by omega
    simp [deduceTypeForDecimal, h9, h18]
  · have h9 : ¬ p ≤ 9 := by omega
    have h18n : ¬ p ≤ 18 := by omega
    have hp0 : p ≠ 0 := by omega
    simp [deduceTypeForDecimal, h9, h18n, decimalMaxDigitsBits, hp0]

/-- Witness for C9 at precision 20: a 9-byte fixed-length array, as the
claim's example states. -/
theorem deduceTypeForDecimal_witness :
    deduceTypeForDecimal 20 = (ParquetType.fixedLenByteArray, 9) := by
  have h := (deduceTypeForDecimal_cases 20 (by decide)).2.2 (by decide)
  rw [h]
  decide

/-- C1 counterexample: for the `id BIGINT PRIMARY KEY` spec (file 0,
`rows = 100`, row 1, so `rowID = 0·100 + 1 = 1`), `generateInt` does not
return the row index: the promotion guard compares `Order` against
`NumericNoOrder`, which `GetSpecFromSQL`-built specs never carry, so the
`random_order` arm runs and yields
`(1·1000000007 mod 32)·2^58 + 1 = 2017612633061982209 ≠ 1`. -/
theorem generateInt_unique_not_rowID :
    (uniqueBigintSpec.generateInt 1 rng0).1 = 2017612633061982209 ∧
    (uniqueBigintSpec.generateInt 1 rng0).1 ≠ (0 * 100 + 1 : ℕ) := by
  constructor <;> decide

/-- C1 amended: for a unique integer column with empty `int_set`,
`stddev = 0` and the default `random_order`, `generateInt` returns the
partial-order value `((rowID·1000000007) mod 32)·2^(type_len−6) + rowID`
(injective in `rowID`, hence still globally unique, but not `i·rows + k`),
and it leaves the spec unchanged: the promotion to `total_order` fires only
for `Order = NumericNoOrder`, which `GetSpecFromSQL` never produces. -/
theorem generateInt_unique_random (c : ColumnSpec) (rowID : ℕ) (rng : Rng)
    (hset : c.intSet = []) (hsd : c.stdDev = 0) (huniq : c.isUnique = true)
    (ho : c.order = NumericOrder.randomOrder) :
    (c.generateInt rowID rng).1 =
      ((rowID * 1000000007 % 32) * 2 ^ (c.typeLen - 6) + rowID : ℕ) ∧
    (c.generateInt rowID rng).2.1 = c := by
  constructor <;>
    simp [ColumnSpec.generateInt, ColumnSpec.generatePartialOrderInt,
      hset, hsd, huniq, ho]

/-- Witness for the amended C1 at the `id BIGINT PRIMARY KEY` spec, row 1. -/
theorem generateInt_unique_random_witness :
    (uniqueBigintSpec.generateInt 1 rng0).1 = 2017612633061982209 ∧
    (uniqueBigintSpec.generateInt 1 rng0).2.1 = uniqueBigintSpec := by
  have h := generateInt_unique_random uniqueBigintSpec 1 rng0 rfl rfl rfl rfl
  exact ⟨h.1.trans (by decide), h.2⟩

/-- Go `int32` truncation is the identity below `2^31`. -/
theorem toInt32_eq_self (z : ℤ) (h0 : 0 ≤ z) (h1 : z < 2 ^ 31) :
    toInt32 z = z := by
  unfold toInt32 Int.bmod
  have hz : z % ((2 ^ 32 : ℕ) : ℤ) = z :=
    Int.emod_eq_of_lt h0 (by push_cast; omega)
  simp only [hz]
  split
  · rfl
  · exfalso
    rename_i hcon
    push_cast at hcon
    omega

/-- Values filled by `fillYearRows` at definition level 1 lie in
`[2000, 2050)`. -/
theorem fillYearRows_range (out : List ℤ) (nulls : List Bool) (rng : Rng)
    (i : ℕ) (hd : (fillYearRows out nulls rng).2.1.getD i 0 = 1) :
    2000 ≤ (fillYearRows out nulls rng).1.getD i 0 ∧
      (fillYearRows out nulls rng).1.getD i 0 < 2050 := by
  induction out generalizing nulls i rng with
  | nil => simp [fillYearRows] at hd
  | cons o os ih =>
    cases nulls with
    | nil => simp [fillYearRows] at hd
    | cons b bs =>
      cases b with
      | true =>
        simp only [fillYearRows, reduceIte] at hd ⊢
        cases i with
        | zero => simp at hd
        | succ j =>
          simp only [List.getD_cons_succ] at hd ⊢
          exact ih bs rng j hd
      | false =>
        simp only [fillYearRows, Bool.false_eq_true, if_false] at hd ⊢
        cases i with
        | zero =>
          have hlt : (rng.int63.1 % 50 : ℕ) < 50 := Nat.mod_lt _ (by norm_num)
          have hval : toInt32 (((rng.int63.1 % 50 : ℕ) : ℤ) + 2000) =
              ((rng.int63.1 % 50 : ℕ) : ℤ) + 2000 := by
            refine toInt32_eq_self _ (by positivity) ?_
            push_cast
            omega
          simp only [List.getD_cons_zero, hval]
          push_cast
          omega
        | succ j =>
          simp only [List.getD_cons_succ] at hd ⊢
          exact ih bs rng.int63.2 j hd

/-- C5 counterexample: for a `year` column the CSV path draws
`Intn(70) + 1970`; with the all-zero stream the emitted value is 1970,
outside `[2000, 2050)`. -/
theorem year_csv_below_2000 :
    (yearSpec.generate 0 rng0).1 = (Value.int 1970, 1) ∧
    ¬ (2000 ≤ (1970 : ℤ) ∧ (1970 : ℤ) < 2050) := by
  constructor <;> decide

/-- C5 amended: the Parquet path (`generateYearParquet`) emits year values
in `[2000, 2050)` at definition level 1, but the CSV path (`generate`, case
`"year"`) emits `Intn(70) + 1970`, i.e. values in `[1970, 2040)`. -/
theorem year_value_ranges (c : ColumnSpec) (rowID : ℕ) (rng rng2 : Rng)
    (out : List ℤ) (i : ℕ) (v : ℤ) (l : ℕ) (hsql : c.sqlType = "year") :
    ((c.generate rowID rng).1 = (Value.int v, l) → 1970 ≤ v ∧ v < 2040) ∧
    ((c.generateYearParquet out rng2).2.1.getD i 0 = 1 →
      2000 ≤ (c.generateYearParquet out rng2).1.getD i 0 ∧
      (c.generateYearParquet out rng2).1.getD i 0 < 2050) := by
  constructor
  · intro h
    simp only [ColumnSpec.generate, hsql] at h
    split at h
    · simp at h
    · simp only [Prod.mk.injEq, Value.int.injEq] at h
      obtain ⟨hv, -⟩ := h
      have hlt : ((c.generateNULL rng).2.intn 70).1 < 70 :=
        Nat.mod_lt _ (by norm_num)
      omega
  · intro hd
    exact fillYearRows_range out _ _ i hd

/-- Witness for the amended C5: a CSV draw hitting 1970 and a Parquet draw
hitting 2000, each within its proven range. -/
theorem year_value_ranges_witness :
    (1970 ≤ (1970 : ℤ) ∧ (1970 : ℤ) < 2040) ∧
    (2000 ≤ (yearSpec.generateYearParquet [7] rng0).1.getD 0 0 ∧
      (yearSpec.generateYearParquet [7] rng0).1.getD 0 0 < 2050) := by
  refine ⟨(year_value_ranges yearSpec 0 rng0 rng0 [] 0 1970 1 rfl).1 (by decide),
    (year_value_ranges yearSpec 0 rng0 rng0 [7] 0 1970 1 rfl).2 (by decide)⟩

/-- `rng.Read` fills exactly the requested number of bytes. -/
theorem rng_read_length (rng : Rng) (n : ℕ) : (rng.read n).1.length = n := by
  induction n generalizing rng with
  | zero => rfl
  | succ m ih => simp [Rng.read, ih]

/-- The batch null mask has one entry per row. -/
theorem generateBatchNull_length (c : ColumnSpec) (n : ℕ) (rng : Rng) :
    (c.generateBatchNull n rng).1.length = n := by
  simp [ColumnSpec.generateBatchNull, rng_read_length]

/-- Every non-sentinel entry produced by `decimalRowsFromSet` is `-1` or a
member of the value set. -/
theorem decimalRowsFromSet_mem (intSet : List ℤ) (hne : intSet ≠ [])
    (nulls : List Bool) (rng : Rng) (i : ℕ) (hi : i < nulls.length) :
    (decimalRowsFromSet intSet nulls rng).1.getD i 0 = -1 ∨
      (decimalRowsFromSet intSet nulls rng).1.getD i 0 ∈ intSet := by
  induction nulls generalizing rng i with
  | nil => simp at hi
  | cons b bs ih =>
    cases b with
    | true =>
      simp only [decimalRowsFromSet, reduceIte]
      cases i with
      | zero => simp
      | succ j =>
        simp only [List.getD_cons_succ]
        exact ih rng j (by simpa using hi)
    | false =>
      simp only [decimalRowsFromSet, Bool.false_eq_true, if_false]
      cases i with
      | zero =>
        right
        simp only [List.getD_cons_zero]
        have hb : (rng.intn intSet.length).1 < intSet.length := by
          simp only [Rng.intn, Rng.next]
          exact Nat.mod_lt _ (List.length_pos.mpr hne)
        rw [List.getD_eq_getElem intSet 0 hb]
        exact List.getElem_mem _
      | succ j =>
        simp only [List.getD_cons_succ]
        exact ih _ j (by simpa using hi)

/-- After the second loop of the decimal INT64 filler, a negative unscaled
value leaves definition level 0 and the original buffer slot. -/
theorem applyDecimalInt64_neg (out us : List ℤ) (i : ℕ)
    (hi : i < out.length) (hneg : us.getD i 0 < 0) :
    (applyDecimalInt64 out us).2.getD i 0 = 0 ∧
      (applyDecimalInt64 out us).1.getD i 0 = out.getD i 0 := by
  induction out generalizing us i with
  | nil => simp at hi
  | cons o os ih =>
    cases us with
    | nil => simp at hneg
    | cons u vs =>
      cases i with
      | zero =>
        simp only [List.getD_cons_zero] at hneg
        simp [applyDecimalInt64, hneg]
      | succ j =>
        simp only [List.getD_cons_succ] at hneg ⊢
        have hj : j < os.length := by simpa using hi
        have h := ih vs j hj hneg
        simp only [applyDecimalInt64]
        split <;> simpa using h

/-- Same as `applyDecimalInt64_neg` for the INT32 variant. -/
theorem applyDecimalInt32_neg (out us : List ℤ) (i : ℕ)
    (hi : i < out.length) (hneg : us.getD i 0 < 0) :
    (applyDecimalInt32 out us).2.getD i 0 = 0 ∧
      (applyDecimalInt32 out us).1.getD i 0 = out.getD i 0 := by
  induction out generalizing us i with
  | nil => simp at hi
  | cons o os ih =>
    cases us with
    | nil => simp at hneg
    | cons u vs =>
      cases i with
      | zero =>
        simp only [List.getD_cons_zero] at hneg
        simp [applyDecimalInt32, hneg]
      | succ j =>
        simp only [List.getD_cons_succ] at hneg ⊢
        have hj : j < os.length := by simpa using hi
        have h := ih vs j hj hneg
        simp only [applyDecimalInt32]
        split <;> simpa using h

/-- C10: for decimal columns at INT32 or INT64 physical width, a negative
unscaled batch value — in particular any negative member of `int_set` drawn
for a non-null row, since set draws land verbatim in the batch — is emitted
as NULL: definition level 0 and the value slot untouched. -/
theorem decimal_negative_unscaled_is_null (c : ColumnSpec)
    (out32 out64 : List ℤ) (rng32 rng64 : Rng) (i : ℕ)
    (hi32 : i < out32.length) (hi64 : i < out64.length)
    (hneg32 : (c.generateDecimalInt64Batch out32.length rng32).1.getD i 0 < 0)
    (hneg64 : (c.generateDecimalInt64Batch out64.length rng64).1.getD i 0 < 0) :
    ((c.generateDecimalInt32Parquet out32 rng32).2.1.getD i 0 = 0 ∧
      (c.generateDecimalInt32Parquet out32 rng32).1.getD i 0 =
        out32.getD i 0) ∧
    ((c.generateDecimalInt64Parquet out64 rng64).2.1.getD i 0 = 0 ∧
      (c.generateDecimalInt64Parquet out64 rng64).1.getD i 0 =
        out64.getD i 0) := by
  constructor
  · simpa [ColumnSpec.generateDecimalInt32Parquet] using
      applyDecimalInt32_neg out32 _ i hi32 hneg32
  · simpa [ColumnSpec.generateDecimalInt64Parquet] using
      applyDecimalInt64_neg out64 _ i hi64 hneg64

/-- Witness for C10: `decimal` column with `set=[-5]`, a two-row batch on
the all-zero stream; row 0 is non-null, draws `-5` from the set, and is
emitted as NULL with the buffer slot still holding its initial 99. -/
theorem decimal_negative_unscaled_is_null_witness :
    ((negSetDecimalSpec.generateDecimalInt32Parquet [99, 98] rng0).2.1.getD 0 0
        = 0 ∧
      (negSetDecimalSpec.generateDecimalInt32Parquet [99, 98] rng0).1.getD 0 0
        = 99) ∧
    ((negSetDecimal64Spec.generateDecimalInt64Parquet [99, 98] rng0).2.1.getD
        0 0 = 0 ∧
      (negSetDecimal64Spec.generateDecimalInt64Parquet [99, 98] rng0).1.getD
        0 0 = 99) := by
  have h := decimal_negative_unscaled_is_null negSetDecimalSpec [99, 98]
    [99, 98] rng0 rng0 0 (by decide) (by decide) (by decide) (by decide)
  have h64 := decimal_negative_unscaled_is_null negSetDecimal64Spec [99, 98]
    [99, 98] rng0 rng0 0 (by decide) (by decide) (by decide) (by decide)
  exact ⟨h.1, h64.2⟩

/-- `String.mk` length. -/
theorem string_mk_length (l : List Char) : (String.mk l).length = l.length :=
  rfl

/-- Hex rendering doubles the byte count. -/
theorem bytesHex_length (l : List ℕ) : (bytesHex l).length = 2 * l.length := by
  induction l with
  | nil => rfl
  | cons b bs ih =>
    simp [bytesHex, byteHex, List.flatten_cons] at ih ⊢
    omega

/-- A rendered UUID is always 36 characters. -/
theorem uuidNewString_length (rng : Rng) :
    ((uuidNewString rng).1).length = 36 := by
  simp only [uuidNewString, string_mk_length]
  simp [List.length_append, bytesHex_length, List.length_take,
    List.length_drop, List.length_set, rng_read_length]

/-- `generateString` with a non-empty value set returns a member of it,
regardless of `IsUnique`. -/
theorem generateString_mem (c : ColumnSpec) (rng : Rng)
    (hne : c.valueSet ≠ []) : (c.generateString rng).1 ∈ c.valueSet := by
  have hlen : 0 < c.valueSet.length := List.length_pos.mpr hne
  simp only [ColumnSpec.generateString, hlen, if_true]
  have hb : (rng.intn c.valueSet.length).1 < c.valueSet.length := by
    simp only [Rng.intn, Rng.next]
    exact Nat.mod_lt _ hlen
  rw [List.getD_eq_getElem c.valueSet "" hb]
  exact List.getElem_mem _

/-- Value-set rows of the Parquet string filler: definition level 1 implies
membership in the value set. -/
theorem fillStringSetRows_mem (vs : List String) (hne : vs ≠ [])
    (out : List String) (nulls : List Bool) (rng : Rng) (i : ℕ)
    (hd : (fillStringSetRows vs out nulls rng).2.1.getD i 0 = 1) :
    (fillStringSetRows vs out nulls rng).1.getD i "" ∈ vs := by
  induction out generalizing nulls rng i with
  | nil => simp [fillStringSetRows] at hd
  | cons o os ih =>
    cases nulls with
    | nil => simp [fillStringSetRows] at hd
    | cons b bs =>
      cases b with
      | true =>
        simp only [fillStringSetRows, reduceIte] at hd ⊢
        cases i with
        | zero => simp at hd
        | succ j =>
          simp only [List.getD_cons_succ] at hd ⊢
          exact ih bs rng j hd
      | false =>
        simp only [fillStringSetRows, Bool.false_eq_true, if_false] at hd ⊢
        cases i with
        | zero =>
          simp only [List.getD_cons_zero]
          have hb : (rng.intn vs.length).1 < vs.length := by
            simp only [Rng.intn, Rng.next]
            exact Nat.mod_lt _ (List.length_pos.mpr hne)
          rw [List.getD_eq_getElem vs "" hb]
          exact List.getElem_mem _
        | succ j =>
          simp only [List.getD_cons_succ] at hd ⊢
          exact ih bs _ j hd

/-- C3 counterexample: a unique string column whose comment carries
`set=["ab"]`.  `generateString` consults the value set before `IsUnique`,
so the emitted value is `"ab"` — drawn from the value set and not a 36-byte
UUID. -/
theorem unique_string_drawn_from_value_set :
    (uniqueSetStringSpec.generateString rng0).1 = "ab" ∧
    "ab" ∈ uniqueSetStringSpec.valueSet ∧ ¬ ("ab".length = 36) := by
  refine ⟨?_, ?_, ?_⟩ <;> decide

/-- C3 amended: in `generateString` a non-empty `value_set` takes
precedence over `is_unique` (the value is drawn from the set); only with an
empty `value_set` does a unique column yield a UUIDv4 string of 36 bytes.
`generateStringParquet` never consults `is_unique` at all: with a non-empty
`value_set` every definition-level-1 value is drawn from the set, and its
output is identical for any value of the `IsUnique` field. -/
theorem string_generation_rules (c : ColumnSpec) (rng rng2 : Rng)
    (out : List String) (i : ℕ) (b : Bool) :
    (c.valueSet ≠ [] → (c.generateString rng).1 ∈ c.valueSet) ∧
    (c.valueSet = [] → c.isUnique = true →
      ((c.generateString rng).1).length = 36) ∧
    (c.valueSet ≠ [] → (c.generateStringParquet out rng2).2.1.getD i 0 = 1 →
      (c.generateStringParquet out rng2).1.getD i "" ∈ c.valueSet) ∧
    ({ c with isUnique := b } : ColumnSpec).generateStringParquet out rng2 =
      c.generateStringParquet out rng2 := by
  refine ⟨fun hne => generateString_mem c rng hne, fun hvs hu => ?_,
    fun hne hd => ?_, ?_⟩
  · simp only [ColumnSpec.generateString, hvs, hu, if_true]
    simp [uuidNewString_length]
  · have hlen : 0 < c.valueSet.length :=
      List.length_pos.mpr hne
    simp only [ColumnSpec.generateStringParquet, hlen, if_true] at hd ⊢
    exact fillStringSetRows_mem c.valueSet hne out _ _ i hd
  · cases c
    rfl

/-- Witness for the amended C3: the value-set draw `"ab"` is a member, and
a unique string column without a value set yields a 36-byte UUID. -/
theorem string_generation_rules_witness :
    (uniqueSetStringSpec.generateString rng0).1 ∈
      uniqueSetStringSpec.valueSet ∧
    ((uniqueStringSpec.generateString rng0).1).length = 36 := by
  refine ⟨(string_generation_rules uniqueSetStringSpec rng0 rng0 [] 0
    false).1 (by decide), (string_generation_rules uniqueStringSpec rng0 rng0
    [] 0 false).2.1 rfl rfl⟩

/-- `generateInt` leaves the spec untouched whenever `Order` is not the
legacy `NumericNoOrder`: its write-through branch is guarded by that
comparison. -/
theorem generateInt_spec_preserved (c : ColumnSpec)
    (hord : c.order ≠ NumericOrder.noOrder) (rowID : ℕ) (rng : Rng) :
    (c.generateInt rowID rng).2.1 = c := by
  unfold ColumnSpec.generateInt
  repeat' split
  all_goals try rfl
  all_goals simp_all
  all_goals rcases hoc : c.order with _ | _ | _ | _ <;> simp [hoc]

/-- Row loop of the INT64 filler preserves the spec. -/
theorem fillInt64Rows_spec_preserved (c : ColumnSpec)
    (hord : c.order ≠ NumericOrder.noOrder) (rowID : ℕ) (out : List ℤ)
    (nulls : List Bool) (rng : Rng) :
    (fillInt64Rows c rowID out nulls rng).2.2.1 = c := by
  induction out generalizing nulls rowID rng with
  | nil => rfl
  | cons o os ih =>
    cases nulls with
    | nil => rfl
    | cons b bs =>
      cases b with
      | true =>
        simp only [fillInt64Rows, reduceIte]
        exact ih (rowID + 1) bs rng
      | false =>
        simp only [fillInt64Rows, Bool.false_eq_true, if_false]
        rw [generateInt_spec_preserved c hord rowID rng]
        exact ih (rowID + 1) bs _

/-- Row loop of the INT32 filler preserves the spec. -/
theorem fillInt32Rows_spec_preserved (c : ColumnSpec)
    (hord : c.order ≠ NumericOrder.noOrder) (rowID : ℕ) (out : List ℤ)
    (nulls : List Bool) (rng : Rng) :
    (fillInt32Rows c rowID out nulls rng).2.2.1 = c := by
  induction out generalizing nulls rowID rng with
  | nil => rfl
  | cons o os ih =>
    cases nulls with
    | nil => rfl
    | cons b bs =>
      cases b with
      | true =>
        simp only [fillInt32Rows, reduceIte]
        exact ih (rowID + 1) bs rng
      | false =>
        simp only [fillInt32Rows, Bool.false_eq_true, if_false]
        rw [generateInt_spec_preserved c hord rowID rng]
        exact ih (rowID + 1) bs _

/-- Row loop of the float fillers preserves the spec. -/
theorem fillFloatRows_spec_preserved (c : ColumnSpec)
    (hord : c.order ≠ NumericOrder.noOrder) (rowID : ℕ) (out : List ℚ)
    (nulls : List Bool) (rng : Rng) :
    (fillFloatRows c rowID out nulls rng).2.2.1 = c := by
  induction out generalizing nulls rng with
  | nil => rfl
  | cons o os ih =>
    cases nulls with
    | nil => rfl
    | cons b bs =>
      cases b with
      | true =>
        simp only [fillFloatRows, reduceIte]
        exact ih bs rng
      | false =>
        simp only [fillFloatRows, Bool.false_eq_true, if_false]
        rw [generateInt_spec_preserved c hord rowID rng]
        exact ih bs _

/-- The CSV row producer `generate` preserves the spec whenever `Order` is
not the legacy `NumericNoOrder`. -/
theorem generate_spec_preserved (c : ColumnSpec)
    (hord : c.order ≠ NumericOrder.noOrder) (rowID : ℕ) (rng : Rng) :
    (c.generate rowID rng).2.1 = c := by
  unfold ColumnSpec.generate
  repeat' split
  all_goals simp [generateInt_spec_preserved c hord]

/-- `FillParquetBatch` preserves the spec whenever `Order` is not the
legacy `NumericNoOrder`. -/
theorem fillParquetBatch_spec_preserved (c : ColumnSpec)
    (hord : c.order ≠ NumericOrder.noOrder) (rowID : ℕ) (buf : ValueBuffer)
    (rng : Rng) :
    (c.fillParquetBatch rowID buf rng).2.1 = c := by
  unfold ColumnSpec.fillParquetBatch
  split <;> (try split) <;> (try split) <;>
    simp [ColumnSpec.generateInt64Parquet, ColumnSpec.generateInt32Parquet,
      ColumnSpec.generateFloat32Parquet, ColumnSpec.generateFloat64Parquet,
      fillInt64Rows_spec_preserved c hord,
      fillInt32Rows_spec_preserved c hord,
      fillFloatRows_spec_preserved c hord]

/-- C4: every value-production operation leaves the `ColumnSpec` unchanged
for any spec whose `Order` is total, partial or random (every spec
`GetSpecFromSQL` builds): `generateInt`, `generate` and `FillParquetBatch`
return the spec they were given, so the branch assigning
`c.Order = NumericTotalOrder` never executes for such specs. -/
theorem columnSpec_immutable (c : ColumnSpec)
    (hord : c.order = NumericOrder.totalOrder ∨
      c.order = NumericOrder.partialOrder ∨
      c.order = NumericOrder.randomOrder)
    (rowID : ℕ) (buf : ValueBuffer) (rng rng2 rng3 : Rng) :
    (c.generateInt rowID rng).2.1 = c ∧
    (c.generate rowID rng2).2.1 = c ∧
    (c.fillParquetBatch rowID buf rng3).2.1 = c := by
  have hno : c.order ≠ NumericOrder.noOrder := by
    rcases hord with h | h | h <;> simp [h]
  exact ⟨generateInt_spec_preserved c hno rowID rng,
    generate_spec_preserved c hno rowID rng2,
    fillParquetBatch_spec_preserved c hno rowID buf rng3⟩

/-- Witness for C4 at the non-unique random-order bigint spec. -/
theorem columnSpec_immutable_witness :
    (randomBigintSpec.generateInt 3 rng0).2.1 = randomBigintSpec ∧
    (randomBigintSpec.generate 3 rng0).2.1 = randomBigintSpec ∧
    (randomBigintSpec.fillParquetBatch 3 (ValueBuffer.i64 [0])
      rng0).2.1 = randomBigintSpec :=
  columnSpec_immutable randomBigintSpec (Or.inr (Or.inr rfl)) 3
    (ValueBuffer.i64 [0]) rng0 rng0 rng0

/-- C2 counterexample: the parquet configuration with `rows = 10`,
`row_groups = 1` has `rows % (row_groups × 50) = 10 ≠ 0`, yet `Validate`
reports no error — and `ParquetWriter.Init` would panic on it, after the
writer pipeline has already been set up. -/
theorem validate_accepts_non_batch_multiple :
    validate cfgRows10 = [] ∧
    Int.tmod cfgRows10.common.rows
      (cfgRows10.parquet.numRowGroups * 50) ≠ 0 ∧
    parquetInitPanics cfgRows10.common.rows
      cfgRows10.parquet.numRowGroups = true := by
  refine ⟨?_, ?_, ?_⟩ <;> decide

/-- C2 amended: for the parquet format, `Validate` only requires
`row_groups > 0` and `rows % row_groups == 0` — not divisibility by
`row_groups × 50`.  A configuration that passes validation but whose
`rows / row_groups` is not a multiple of the batch size 50 reaches
`ParquetWriter.Init`, which panics on its
`rowsPerRowGroup % BatchSize != 0` assertion (after the object-store
writer has been opened in direct mode). -/
theorem validate_parquet_requirements (cfg : Config)
    (hfmt : strToLower (strTrim cfg.common.fileFormat) = "parquet")
    (hok : validate cfg = []) :
    0 < cfg.parquet.numRowGroups ∧
    Int.tmod cfg.common.rows cfg.parquet.numRowGroups = 0 ∧
    (Int.tmod (Int.tdiv cfg.common.rows cfg.parquet.numRowGroups) 50 ≠ 0 →
      parquetInitPanics cfg.common.rows cfg.parquet.numRowGroups = true) := by
  have hrg : ¬ cfg.parquet.numRowGroups ≤ 0 := by
    intro h
    simp [validate, hfmt, h] at hok
  have hrows : ¬ cfg.common.rows ≤ 0 := by
    intro h
    simp [validate, hfmt, h] at hok
  have hdiv : ¬ (cfg.common.rows > 0 ∧
      Int.tmod cfg.common.rows cfg.parquet.numRowGroups ≠ 0) := by
    intro h
    simp [validate, hfmt, hrg, h.1, h.2] at hok
  refine ⟨by omega, ?_, ?_⟩
  · by_contra hne
    exact hdiv ⟨by omega, hne⟩
  · intro h
    simp only [parquetInitPanics, BatchSize, bne_iff_ne, ne_eq]
    simpa using h

/-- Witness for the amended C2 at the `rows = 10`, `row_groups = 1`
configuration. -/
theorem validate_parquet_requirements_witness :
    (0 : ℤ) < cfgRows10.parquet.numRowGroups ∧
    Int.tmod cfgRows10.common.rows cfgRows10.parquet.numRowGroups = 0 ∧
    parquetInitPanics cfgRows10.common.rows
      cfgRows10.parquet.numRowGroups = true := by
  have h := validate_parquet_requirements cfgRows10 (by decide) (by decide)
  exact ⟨h.1, h.2.1, h.2.2 (by decide)⟩

/-- C6 counterexample: an otherwise-valid configuration with
`start_fileno = end_fileno = 5` is rejected by `Validate`, so the `create`
operation (spec-modelled wiring: validate, then run) exits with an error,
not exit code 0. -/
theorem start_eq_end_rejected_by_validate :
    validate cfgStartEqEnd =
      ["common.end_fileno must be greater than common.start_fileno"] ∧
    createOperation cfgStartEqEnd (fun _ => Except.ok ()) =
      Except.error
        "common.end_fileno must be greater than common.start_fileno" := by
  exact ⟨by decide, rfl⟩

/-- C6 amended: with `start_fileno = end_fileno`, `Orchestrator.Run`
itself iterates over no file numbers — it makes no object-store `Create`
call and returns no error, for any per-file outcome oracle — but
`Validate` rejects such a configuration
(`common.end_fileno must be greater than common.start_fileno`), so the
`create` operation fails before reaching `Run` and exits non-zero. -/
theorem start_eq_end_behavior (cfg : Config)
    (fileResult : ℤ → Except String Unit)
    (h : cfg.common.startFileNo = cfg.common.endFileNo) :
    runFileNos cfg = [] ∧
    orchestratorRun cfg fileResult = Except.ok () ∧
    validate cfg ≠ [] ∧
    createOperation cfg fileResult ≠ Except.ok () := by
  have hran : runFileNos cfg = [] := by
    simp [runFileNos, h]
  have hrun : orchestratorRun cfg fileResult = Except.ok () := by
    simp [orchestratorRun, hran]
  have hval : validate cfg ≠ [] := by
    intro hnil
    simp only [validate] at hnil
    rw [h] at hnil
    simp at hnil
  refine ⟨hran, hrun, hval, ?_⟩
  rcases hv : validate cfg with _ | ⟨e, es⟩
  · exact absurd hv hval
  · simp [createOperation, hv]

/-- Witness for the amended C6 at the concrete `start = end = 5`
configuration. -/
theorem start_eq_end_behavior_witness :
    runFileNos cfgStartEqEnd = [] ∧
    orchestratorRun cfgStartEqEnd (fun _ => Except.ok ()) =
      Except.ok () ∧
    validate cfgStartEqEnd ≠ [] ∧
    createOperation cfgStartEqEnd (fun _ => Except.ok ()) ≠
      Except.ok () :=
  start_eq_end_behavior cfgStartEqEnd (fun _ => Except.ok ()) rfl

/-- Send-loop invariant: the loop never touches the buffer or chunk size,
advances `lastSent` within bounds, emits exactly the bytes between the old
and new `lastSent` as full non-final chunks, and (for a positive chunk
size) leaves fewer than `chunkSize` unsent bytes. -/
theorem spwSendLoop_spec : ∀ (n : ℕ) (w : StreamingParquetWriter),
    w.buffer.length - w.lastSent = n → w.lastSent ≤ w.buffer.length →
    (spwSendLoop w).1.buffer = w.buffer ∧
    (spwSendLoop w).1.chunkSize = w.chunkSize ∧
    w.lastSent ≤ (spwSendLoop w).1.lastSent ∧
    (spwSendLoop w).1.lastSent ≤ w.buffer.length ∧
    ((spwSendLoop w).2.map FileChunk.data).flatten ++
      w.buffer.drop (spwSendLoop w).1.lastSent = w.buffer.drop w.lastSent ∧
    (∀ ch ∈ (spwSendLoop w).2, ch.isLast = false ∧
      ch.data.length = w.chunkSize) ∧
    (0 < w.chunkSize →
      w.buffer.length - (spwSendLoop w).1.lastSent < w.chunkSize) := by
  intro n
  induction n using Nat.strong_induction_on with
  | _ n ih =>
    intro w hn hls
    rw [spwSendLoop]
    split
    · rename_i hcond
      obtain ⟨hcs, hle⟩ := hcond
      have hm : ({ w with lastSent := w.lastSent + w.chunkSize } :
          StreamingParquetWriter).buffer.length -
          ({ w with lastSent := w.lastSent + w.chunkSize } :
          StreamingParquetWriter).lastSent < n := by
        simp only
        omega
      have hls' : ({ w with lastSent := w.lastSent + w.chunkSize } :
          StreamingParquetWriter).lastSent ≤
          ({ w with lastSent := w.lastSent + w.chunkSize } :
          StreamingParquetWriter).buffer.length := by
        simp only
        omega
      have IH := ih _ hm { w with lastSent := w.lastSent + w.chunkSize }
        rfl hls'
      obtain ⟨ib, ics, ilo, ihi, iflat, ichunks, irem⟩ := IH
      simp only at ib ics ilo ihi iflat ichunks irem ⊢
      refine ⟨ib, ics, by omega, ihi, ?_, ?_, ?_⟩
      · rw [List.map_cons, List.flatten_cons, List.append_assoc, iflat]
        have hsplit : w.buffer.drop w.lastSent =
            (w.buffer.drop w.lastSent).take w.chunkSize ++
            (w.buffer.drop w.lastSent).drop w.chunkSize :=
          (List.take_append_drop _ _).symm
        rw [List.drop_drop] at hsplit
        exact hsplit.symm
      · intro ch hch
        rcases List.mem_cons.mp hch with hch1 | hch1
        · subst hch1
          refine ⟨rfl, ?_⟩
          simp only [List.length_take, List.length_drop]
          omega
        · exact ichunks ch hch1
      · intro hpos
        exact irem hpos
    · refine ⟨rfl, rfl, le_refl _, hls, by simp, by simp, ?_⟩
      rename_i hcond
      intro hpos
      show w.buffer.length - w.lastSent < w.chunkSize
      omega

/-- `Write` invariant: chunk size and the bound `lastSent ≤ buffer length`
are preserved (also across compaction), the emitted chunks plus the unsent
tail account exactly for the previously unsent bytes followed by the new
data, every emitted chunk is a full non-final chunk, and fewer than
`chunkSize` bytes remain unsent. -/
theorem spwWrite_spec (w : StreamingParquetWriter) (data : List ℕ)
    (hls : w.lastSent ≤ w.buffer.length) :
    (spwWrite w data).1.chunkSize = w.chunkSize ∧
    (spwWrite w data).1.lastSent ≤ (spwWrite w data).1.buffer.length ∧
    ((spwWrite w data).2.map FileChunk.data).flatten ++
      (spwWrite w data).1.buffer.drop (spwWrite w data).1.lastSent =
      w.buffer.drop w.lastSent ++ data ∧
    (∀ ch ∈ (spwWrite w data).2, ch.isLast = false ∧
      ch.data.length = w.chunkSize) ∧
    (0 < w.chunkSize →
      (spwWrite w data).1.buffer.length -
        (spwWrite w data).1.lastSent < w.chunkSize) := by
  have hls0 : ({ w with buffer := w.buffer ++ data } :
      StreamingParquetWriter).lastSent ≤
      ({ w with buffer := w.buffer ++ data } :
      StreamingParquetWriter).buffer.length := by
    simp only [List.length_append]
    omega
  have H := spwSendLoop_spec _ { w with buffer := w.buffer ++ data } rfl hls0
  obtain ⟨ib, ics, ilo, ihi, iflat, ichunks, irem⟩ := H
  simp only [List.length_append] at ib ics ilo ihi iflat ichunks irem
  have hdropped : (w.buffer ++ data).drop w.lastSent =
      w.buffer.drop w.lastSent ++ data :=
    List.drop_append_of_le_length hls
  have hw : spwWrite w data =
      (if (spwSendLoop { w with buffer := w.buffer ++ data }).1.chunkSize * 4
          ≤ (spwSendLoop { w with buffer := w.buffer ++ data }).1.lastSent
        then
          { (spwSendLoop { w with buffer := w.buffer ++ data }).1 with
            buffer := (spwSendLoop
                { w with buffer := w.buffer ++ data }).1.buffer.drop
              (spwSendLoop { w with buffer := w.buffer ++ data }).1.lastSent,
            lastSent := 0 }
        else (spwSendLoop { w with buffer := w.buffer ++ data }).1,
       (spwSendLoop { w with buffer := w.buffer ++ data }).2) := rfl
  rw [hw]
  split
  · refine ⟨by simpa using ics, ?_, ?_, ichunks, ?_⟩
    · simp
    · simp only [List.drop_zero]
      rw [ib, iflat, hdropped]
    · intro hpos
      simp only [List.length_drop]
      rw [ib]
      simp only [List.length_append]
      have := irem hpos
      omega
  · refine ⟨ics, by rw [ib]; simpa using ihi, ?_, ichunks, ?_⟩
    · rw [ib, iflat, hdropped]
    · intro hpos
      rw [ib]
      simp only [List.length_append]
      have := irem hpos
      omega

/-- Folding `Write` over all encoder writes keeps the invariant and
accounts for every written byte. -/
theorem spwRunWrites_spec (writes : List (List ℕ))
    (w : StreamingParquetWriter) (hls : w.lastSent ≤ w.buffer.length)
    (hrem : 0 < w.chunkSize →
      w.buffer.length - w.lastSent < w.chunkSize) :
    (spwRunWrites w writes).1.chunkSize = w.chunkSize ∧
    (spwRunWrites w writes).1.lastSent ≤
      (spwRunWrites w writes).1.buffer.length ∧
    ((spwRunWrites w writes).2.map FileChunk.data).flatten ++
      (spwRunWrites w writes).1.buffer.drop
        (spwRunWrites w writes).1.lastSent =
      w.buffer.drop w.lastSent ++ writes.flatten ∧
    (∀ ch ∈ (spwRunWrites w writes).2, ch.isLast = false ∧
      ch.data.length = w.chunkSize) ∧
    (0 < w.chunkSize →
      (spwRunWrites w writes).1.buffer.length -
        (spwRunWrites w writes).1.lastSent < w.chunkSize) := by
  induction writes generalizing w with
  | nil =>
    exact ⟨rfl, hls, by simp [spwRunWrites], by simp [spwRunWrites], hrem⟩
  | cons d ds ihw =>
    have hw := spwWrite_spec w d hls
    obtain ⟨wcs, wls, wflat, wchunks, wrem⟩ := hw
    have hnext := ihw (spwWrite w d).1 wls
      (fun hpos => by rw [wcs]; exact wrem (by rwa [wcs] at hpos))
    obtain ⟨ncs, nls, nflat, nchunks, nrem⟩ := hnext
    simp only [spwRunWrites]
    refine ⟨by rw [ncs, wcs], nls, ?_, ?_, ?_⟩
    · rw [List.map_append, List.flatten_append, List.append_assoc, nflat,
        List.flatten_cons, ← List.append_assoc, wflat, List.append_assoc]
    · intro ch hch
      rcases List.mem_append.mp hch with hch | hch
      · exact wchunks ch hch
      · rw [← wcs]
        exact nchunks ch hch
    · intro hpos
      rw [← wcs] at hpos ⊢
      exact nrem hpos

/-- The closing chunk always carries `is_last = true`. -/
theorem spwClose_isLast (w : StreamingParquetWriter) :
    (spwClose w).isLast = true := by
  unfold spwClose
  split <;> rfl

/-- The closing chunk's data is exactly the unsent tail of the buffer. -/
theorem spwClose_data (w : StreamingParquetWriter)
    (hls : w.lastSent ≤ w.buffer.length) :
    (spwClose w).data = w.buffer.drop w.lastSent := by
  unfold spwClose
  split
  · rfl
  · rename_i hrem
    have hlen : (w.buffer.drop w.lastSent).length = 0 := by
      simp only [List.length_drop]
      omega
    exact (List.eq_nil_of_length_eq_zero hlen).symm

/-- C7: for every sequence of encoder writes followed by `Close` on the
streaming sink (with a positive target chunk size): (a) the concatenation
of the emitted chunks' data equals the concatenation of all written bytes,
in order, with no gaps; (b) every chunk except the final one has
`is_last = false` and exactly `chunkSize` bytes; (c) exactly one final
chunk is emitted, it is the last one, it has `is_last = true`, and it may
be empty. -/
theorem spw_chunk_stream (cs : ℕ) (hcs : 0 < cs) (writes : List (List ℕ)) :
    ((spwRun cs writes).map FileChunk.data).flatten = writes.flatten ∧
    (∀ ch ∈ (spwRun cs writes).dropLast, ch.isLast = false ∧
      ch.data.length = cs) ∧
    ((spwRun cs writes).getLastD ⟨[], false⟩).isLast = true ∧
    (spwRun cs writes).countP (fun ch => ch.isLast) = 1 := by
  have H := spwRunWrites_spec writes (spwInit cs) (by simp [spwInit])
    (fun _ => by simpa [spwInit] using hcs)
  obtain ⟨ics, ils, iflat, ichunks, irem⟩ := H
  have hclosed : (spwClose (spwRunWrites (spwInit cs) writes).1).data =
      (spwRunWrites (spwInit cs) writes).1.buffer.drop
        (spwRunWrites (spwInit cs) writes).1.lastSent :=
    spwClose_data _ ils
  refine ⟨?_, ?_, ?_, ?_⟩
  · simp only [spwRun, List.map_append, List.flatten_append, List.map_cons,
      List.map_nil, List.flatten_cons, List.flatten_nil, List.append_nil,
      hclosed]
    simpa [spwInit] using iflat
  · intro ch hch
    rw [spwRun, List.dropLast_concat] at hch
    have h := ichunks ch hch
    rwa [show (spwInit cs).chunkSize = cs from rfl] at h
  · rw [spwRun, List.getLastD_concat]
    exact spwClose_isLast _
  · rw [spwRun, List.countP_append]
    have h0 : (spwRunWrites (spwInit cs) writes).2.countP
        (fun ch => ch.isLast) = 0 :=
      List.countP_eq_zero.mpr (fun ch hch => by
        simp [(ichunks ch hch).1])
    simp [h0, List.countP_cons, spwClose_isLast]

/-- Witness for C7 at chunk size 2 and the single write `[1,2,3]`: the
chunks are `[1,2]` (non-final, full) followed by `[3]` (final). -/
theorem spw_chunk_stream_witness :
    ((spwRun 2 [[1, 2, 3]]).map FileChunk.data).flatten = [1, 2, 3] ∧
    (spwRun 2 [[1, 2, 3]]).countP (fun ch => ch.isLast) = 1 := by
  have h := spw_chunk_stream 2 (by decide) [[1, 2, 3]]
  exact ⟨by simpa using h.1, h.2.2.2⟩

end DataWriter
